import Mathlib

/-!
# Job-site backend: aggregate maintenance and idempotent application

A shallow embedding of the controllers `companyController.js` and
`jobController.js` together with the Mongoose schemas they write through
(`Company.js`, `JobPost.js`, `JobApplication.js`).

Conventions of the embedding

* A JavaScript property that holds a string or is missing is an `Option String`;
  `none` is `undefined`.  Truthiness, template interpolation and `x || undefined`
  are the functions `truthy`, `interp` and `orUndefined`.
* A collection is the list of its documents in natural order.  A filter on a key
  selects the first document whose key is equal, which is what `findOne`,
  `updateOne` and `findOneAndUpdate` act on.
* `Number` counters are integers; timestamps are integer milliseconds.
* `createdAt`, `updatedAt` and the `_id` of a Company are not modelled.
* A store call either returns or throws; a throwing call is an `Except.error`
  and leaves the collection as it was.
* Mongoose drops a `$set` key whose value is `undefined` before the update is
  sent (the behaviour of every Mongoose release that accepts the bare
  `mongoose.connect(uri)` of `server.js`), so such a key leaves the stored
  field as it is.
* The `company` of a `JobPost` document is the stored value, which the JobPost
  schema has trimmed; the `trim` setter of `Company.companyName` is the identity
  on it and is left out of the key comparison.  The setter is applied to every
  string a writer puts in `$set`.
-/

namespace JobSite

/-! ## JavaScript values -/

/-- Truthiness of a string-valued property: defined and not the empty string. -/
def truthy : Option String → Bool
  | some s => decide (s ≠ "")
  | none => false

/-- Template-literal interpolation of a string-valued property. -/
def interp : Option String → String
  | some s => s
  | none => "undefined"

/-- The expression `v || undefined`. -/
def orUndefined (v : Option String) : Option String :=
  if truthy v then v else none

/-- The expression `v || ''`. -/
def orEmpty (v : Option String) : String :=
  if truthy v then interp v else ""

/-- White space and line terminators removed by `String.prototype.trim`. -/
def isJsSpace (c : Char) : Bool :=
  let n := c.toNat
  n == 9 || n == 10 || n == 11 || n == 12 || n == 13 || n == 32 || n == 160 ||
  n == 5760 || (8192 ≤ n && n ≤ 8202) || n == 8232 || n == 8233 || n == 8239 ||
  n == 8287 || n == 12288 || n == 65279

/-- The method `String.prototype.trim`, also the `trim: true` schema setter. -/
def jsTrim (s : String) : String :=
  String.mk ((s.data.dropWhile isJsSpace).reverse.dropWhile isJsSpace).reverse

/-- An error thrown by a store call or by a validator. -/
structure JsError where
  code : Option Nat
  message : String
deriving DecidableEq, Repr

/-! ## Documents -/

/-- Lifecycle status of a job (`enum` of `JobPost.status`). -/
inductive JobStatus where
  | Active
  | Draft
  | Expired
deriving DecidableEq, Repr

/-- A `JobPost` document, restricted to the fields the controllers read. -/
structure JobPost where
  id : Nat
  title : String
  company : String
  companyLogo : Option String
  category : Option String
  jobType : Option String
  remote : Bool
  city : Option String
  state : Option String
  country : Option String
  salaryMin : Option Int
  salaryMax : Option Int
  currency : Option String
  salaryPer : Option String
  endDate : Option Int
  status : Option JobStatus
  applicationsCount : Int
deriving DecidableEq, Repr

/-- A `Company` document (`CompanySchema`). -/
structure Company where
  companyName : String
  logo : Option String
  location : Option String
  industry : Option String
  openPositions : Int
  featured : Bool
  description : Option String
deriving DecidableEq, Repr

/-! ## The Company collection -/

/-- What an update document does to `openPositions`. -/
inductive CounterOp where
  | inc (k : Int)
  | set (n : Int)
deriving DecidableEq, Repr

/-- The update documents the two writers build: `$set` on `logo`, `industry`,
`location` (each possibly `undefined`) and `$inc` or `$set` on `openPositions`.
`$setOnInsert: companyName` is the filter key and is supplied by the upsert. -/
structure CompanyUpdate where
  logo : Option String
  industry : Option String
  location : Option String
  counter : CounterOp
deriving DecidableEq, Repr

/-- One `$set` key: an `undefined` value is dropped, a string goes through the
`trim: true` setter of the schema and replaces the stored value. -/
def setField (v : Option String) (old : Option String) : Option String :=
  match v with
  | some s => some (jsTrim s)
  | none => old

/-- The effect of `$inc` or `$set` on the counter. -/
def CounterOp.apply : CounterOp → Int → Int
  | CounterOp.inc k, n => n + k
  | CounterOp.set m, _ => m

/-- The effect of an update document on a matched (or freshly inserted) document. -/
def CompanyUpdate.apply (u : CompanyUpdate) (r : Company) : Company :=
  { r with
    logo := setField u.logo r.logo
    industry := setField u.industry r.industry
    location := setField u.location r.location
    openPositions := u.counter.apply r.openPositions }

/-- The document an upsert starts from when nothing matches: the filter key and
the schema defaults (`openPositions: 0`, `featured: false`). -/
def Company.blank (name : String) : Company :=
  { companyName := name, logo := none, location := none, industry := none,
    openPositions := 0, featured := false, description := none }

/-- The query `Company.findOne` on the key `companyName`. -/
def Company.findOne (name : String) (store : List Company) : Option Company :=
  store.find? (fun r => decide (r.companyName = name))

/-- Update of the first document matching the key; `none` when nothing matches. -/
def updateFirst (name : String) (f : Company → Company) :
    List Company → Option (List Company)
  | [] => none
  | r :: rs =>
    if r.companyName = name then some (f r :: rs)
    else (updateFirst name f rs).map (fun rs' => r :: rs')

/-- An upsert on the key `companyName`: update the first match, or insert. -/
def upsertDoc (name : String) (u : CompanyUpdate) (store : List Company) : List Company :=
  match updateFirst name u.apply store with
  | some store' => store'
  | none => store ++ [u.apply (Company.blank name)]

/-- The result object of `updateOne`. -/
structure UpdateResult where
  matchedCount : Nat
  upsertedCount : Nat
deriving DecidableEq, Repr

/-- The Company collection as the controllers see it: each call may throw. -/
structure CompanyColl where
  findOneAndUpdate : String → CompanyUpdate → List Company → Except JsError (List Company)
  updateOne : String → CompanyUpdate → List Company →
    Except JsError (UpdateResult × List Company)

/-- The collection when every call succeeds: both calls are atomic upserts. -/
def mongo : CompanyColl where
  findOneAndUpdate := fun name u store => Except.ok (upsertDoc name u store)
  updateOne := fun name u store =>
    match updateFirst name u.apply store with
    | some store' => Except.ok ({ matchedCount := 1, upsertedCount := 0 }, store')
    | none =>
      Except.ok ({ matchedCount := 0, upsertedCount := 1 },
        store ++ [u.apply (Company.blank name)])

/-! ## `upsertCompanyFromJob` -/

/-- The location string `upsertCompanyFromJob` derives (line 79). -/
def upsertLocation (job : JobPost) : String :=
  if job.remote then "Remote"
  else interp job.city ++ (if truthy job.state then ", " ++ interp job.state else "") ++
    ", " ++ interp job.country

/-- The update document of `upsertCompanyFromJob` (lines 82-90). -/
def upsertUpdate (job : JobPost) : CompanyUpdate :=
  { logo := orUndefined job.companyLogo
    industry := orUndefined job.category
    location := some (upsertLocation job)
    counter := CounterOp.inc 1 }

/-- The helper `upsertCompanyFromJob`: the guard, the upsert, and the `catch`
that logs a warning and returns normally. -/
def upsertCompanyFromJob (coll : CompanyColl) (job : JobPost) (store : List Company) :
    Except JsError (List Company) :=
  Except.tryCatch
    (if job.company = "" then Except.ok store
     else coll.findOneAndUpdate job.company (upsertUpdate job) store)
    (fun _ => Except.ok store)

/-! ## `backfillCompaniesFromJobs` -/

/-- One output document of the `$group` stage (lines 104-113): `_id` is the
company, `openPositions` is `$sum: 1`, the other keys are `$first`. -/
structure CompanyGroup where
  name : String
  openPositions : Nat
  companyLogo : Option String
  category : Option String
  remote : Bool
  city : Option String
  state : Option String
  country : Option String
deriving DecidableEq, Repr

/-- The aggregation `JobPost.aggregate([{ $group: ... }])` over the collection in
natural order: one group per distinct company, in order of first occurrence; the
count is the number of documents of the group and every `$first` key comes from
its first document. -/
def groupStage : List JobPost → List CompanyGroup
  | [] => []
  | j :: js =>
    { name := j.company
      openPositions := (j :: js).countP (fun x => decide (x.company = j.company))
      companyLogo := j.companyLogo
      category := j.category
      remote := j.remote
      city := j.city
      state := j.state
      country := j.country } ::
    (groupStage js).filter (fun g => decide (g.name ≠ j.company))

/-- The location string `backfillCompaniesFromJobs` derives (line 122). -/
def backfillLocation (g : CompanyGroup) : String :=
  if g.remote then "Remote"
  else jsTrim (orEmpty g.city ++ (if truthy g.state then ", " ++ interp g.state else "") ++
    (if truthy g.country then
      (if truthy g.city || truthy g.state then ", " else "") ++ interp g.country
     else ""))

/-- The update document of `backfillCompaniesFromJobs` (lines 125-133). -/
def backfillUpdate (g : CompanyGroup) : CompanyUpdate :=
  { logo := orUndefined g.companyLogo
    industry := orUndefined g.category
    location := orUndefined (some (backfillLocation g))
    counter := CounterOp.set (if g.openPositions = 0 then 0 else (g.openPositions : Int)) }

/-- The `for` loop of `backfillCompaniesFromJobs` (lines 120-140), carrying the
counters `created` and `updated`; a throwing `updateOne` ends the loop and keeps
the writes made so far. -/
def backfillLoop (coll : CompanyColl) :
    List CompanyGroup → Nat → Nat → List Company → Except JsError (Nat × Nat) × List Company
  | [], created, updated, store => (Except.ok (created, updated), store)
  | g :: gs, created, updated, store =>
    match coll.updateOne g.name (backfillUpdate g) store with
    | Except.error e => (Except.error e, store)
    | Except.ok (resUpdate, store') =>
      if 0 < resUpdate.upsertedCount then
        backfillLoop coll gs (created + resUpdate.upsertedCount) updated store'
      else if resUpdate.matchedCount ≠ 0 then
        backfillLoop coll gs created (updated + resUpdate.matchedCount) store'
      else backfillLoop coll gs created (updated + 1) store'

/-- An HTTP answer: status code and JSON body. -/
structure Response (β : Type) where
  status : Nat
  body : β
deriving DecidableEq, Repr

/-- The bodies `backfillCompaniesFromJobs` sends. -/
inductive BackfillBody where
  | summary (companiesProcessed created updated : Nat)
  | error (msg : String)
deriving DecidableEq, Repr

/-- The handler `backfillCompaniesFromJobs`: `aggregate` is the outcome of the
`$group` aggregation, `store` the Company collection before the call. -/
def backfillCompaniesFromJobs (coll : CompanyColl)
    (aggregate : Except JsError (List CompanyGroup)) (store : List Company) :
    Response BackfillBody × List Company :=
  match aggregate with
  | Except.error _ => ({ status := 500, body := BackfillBody.error "Failed to backfill companies" }, store)
  | Except.ok groups =>
    match backfillLoop coll groups 0 0 store with
    | (Except.ok (created, updated), store') =>
      ({ status := 200, body := BackfillBody.summary groups.length created updated }, store')
    | (Except.error _, store') =>
      ({ status := 500, body := BackfillBody.error "Failed to backfill companies" }, store')

/-- A reconciliation run in which every store call succeeds. -/
def reconcileAll (jobs : List JobPost) (store : List Company) :
    Response BackfillBody × List Company :=
  backfillCompaniesFromJobs mongo (Except.ok (groupStage jobs)) store

/-- The filter `matchActive` of `getCompanies` (lines 14-26): a job that is not
expired at time `now`. -/
def matchActive (now : Int) (j : JobPost) : Bool :=
  (match j.endDate with
   | none => true
   | some ts => decide (now ≤ ts)) &&
  decide (j.status ≠ some JobStatus.Expired)

/-! ## `createJob` -/

/-- A numeric request field as `Number(v)` sees it. -/
inductive RawNumber where
  | absent
  | finite (n : Int)
  | notFinite
deriving DecidableEq, Repr

/-- The helper `toNumber` (lines 9-12), applied only when the field is not
`undefined` (lines 19-20). -/
def toNumber : RawNumber → Option Int
  | RawNumber.finite n => some n
  | _ => none

/-- The request field `endDate`: missing or falsy, not a date, or a date. -/
inductive EndRaw where
  | absent
  | unparseable
  | date (ts : Int)
deriving DecidableEq, Repr

/-- The expression `endRaw ? new Date(endRaw).getTime() : NaN`; `none` is `NaN`. -/
def EndRaw.getTime : EndRaw → Option Int
  | EndRaw.date ts => some ts
  | _ => none

/-- The request body of `createJob`. -/
structure JobRequest where
  title : Option String
  company : Option String
  companyLogo : Option String
  category : Option String
  jobType : Option String
  remote : Bool
  city : Option String
  state : Option String
  country : Option String
  salaryMin : RawNumber
  salaryMax : RawNumber
  currency : Option String
  salaryPer : Option String
  endDate : EndRaw
  workMode : Option String
  shortDescription : Option String
  longDescription : Option String
  experience : Option String
  employmentLevel : Option String
  apply : Option String
deriving DecidableEq, Repr

/-- The object handed to `JobPost.create`: the body with normalised salary
bounds and the generated `schemaJsonLd`. -/
structure JobPayload where
  request : JobRequest
  salaryMin : Option Int
  salaryMax : Option Int
  schemaJsonLd : Option String
deriving DecidableEq, Repr

/-- The bodies `createJob` sends. -/
inductive CreateJobBody where
  | job (j : JobPost)
  | error (msg : String)
deriving DecidableEq, Repr

/-- What `createJob` calls: the clock, the JSON-LD builder, `JobPost.create`
(validation and insert, which may throw) and the Company collection. -/
structure CreateJobEnv where
  now : Int
  buildJobJsonLd : JobPayload → Except JsError String
  jobCreate : JobPayload → List JobPost → Except JsError (JobPost × List JobPost)
  companies : CompanyColl

/-- The outcome of one `createJob` request: the answer, both collections
afterwards, and the job handed to the detached notification task when that
task was started. -/
structure CreateJobResult where
  response : Response CreateJobBody
  jobs : List JobPost
  companies : List Company
  notify : Option JobPost

/-- The payload `createJob` builds (lines 16-20 and 32-56): salary bounds through
`toNumber`, and `schemaJsonLd` when the builder does not throw. -/
def createPayload (env : CreateJobEnv) (body : JobRequest) : JobPayload :=
  let payload0 : JobPayload :=
    { request := body, salaryMin := toNumber body.salaryMin,
      salaryMax := toNumber body.salaryMax, schemaJsonLd := none }
  match env.buildJobJsonLd payload0 with
  | Except.ok ld => { payload0 with schemaJsonLd := some ld }
  | Except.error _ => payload0

/-- The handler `createJob` up to its answer (lines 14-60 and 135-139).  The
notification task of lines 62-134 is detached: it is started with the persisted
job and nothing it does reaches the answer. -/
def createJob (env : CreateJobEnv) (body : JobRequest) (jobs : List JobPost)
    (companies : List Company) : CreateJobResult :=
  match body.endDate.getTime with
  | none =>
    { response :=
        { status := 400, body := CreateJobBody.error "endDate is required and must be a valid date" },
      jobs := jobs, companies := companies, notify := none }
  | some endTs =>
    if endTs < env.now then
      { response := { status := 400, body := CreateJobBody.error "endDate must be a future date" },
        jobs := jobs, companies := companies, notify := none }
    else
      match env.jobCreate (createPayload env body) jobs with
      | Except.error err =>
        { response :=
            { status := 400,
              body := CreateJobBody.error (if err.message = "" then "Invalid job data" else err.message) },
          jobs := jobs, companies := companies, notify := none }
      | Except.ok (job, jobs') =>
        let companies' :=
          match upsertCompanyFromJob env.companies job companies with
          | Except.ok store => store
          | Except.error _ => companies
        { response := { status := 201, body := CreateJobBody.job job },
          jobs := jobs', companies := companies', notify := some job }

/-! ## `JobPost.create` and `getJobById` -/

/-- A `required: true` string path with `trim: true`: the stored value, or `none`
when validation rejects it (missing, or empty after trimming). -/
def requiredString (v : Option String) : Option String :=
  match v with
  | some s => if jsTrim s = "" then none else some (jsTrim s)
  | none => none

/-- The validator of `JobPostSchema.endDate` (JobPost.js lines 44-50), run when
the clock reads `nowV`. -/
def endDateValidator (nowV : Int) (v : Option Int) : Bool :=
  match v with
  | none => false
  | some ts => decide (nowV ≤ ts)

/-- The document `JobPost.create` builds once the required paths are present:
trimmed strings and the schema defaults (`currency: 'USD'`, `salaryPer: 'Year'`,
`status: 'Active'`, `applicationsCount: 0`). -/
def newJobPost (newId : Nat) (p : JobPayload) (ts : Int) : Option JobPost := do
  let title ← requiredString p.request.title
  let company ← requiredString p.request.company
  let category ← requiredString p.request.category
  let jobType ← requiredString p.request.jobType
  let _ ← requiredString p.request.workMode
  let country ← requiredString p.request.country
  let city ← requiredString p.request.city
  let state ← requiredString p.request.state
  let _ ← requiredString p.request.shortDescription
  let _ ← requiredString p.request.longDescription
  let _ ← requiredString p.request.experience
  let _ ← requiredString p.request.employmentLevel
  let _ ← requiredString p.request.apply
  pure
    { id := newId, title := title, company := company,
      companyLogo := p.request.companyLogo.map jsTrim,
      category := some category, jobType := some jobType, remote := p.request.remote,
      city := some city, state := some state, country := some country,
      salaryMin := p.salaryMin, salaryMax := p.salaryMax,
      currency := some (p.request.currency.getD "USD"),
      salaryPer := some (p.request.salaryPer.getD "Year"),
      endDate := some ts, status := some JobStatus.Active, applicationsCount := 0 }

/-- The call `JobPost.create(payload)` against the schema of `JobPost.js`: the
required paths, the `endDate` cast and validator (clock reading `nowV`), then
the insert of a document with the fresh id `newId`. -/
def JobPost.create (nowV : Int) (newId : Nat) (p : JobPayload) (jobs : List JobPost) :
    Except JsError (JobPost × List JobPost) :=
  match p.request.endDate with
  | EndRaw.date ts =>
    if endDateValidator nowV (some ts) then
      match newJobPost newId p ts with
      | some job => Except.ok (job, jobs ++ [job])
      | none => Except.error { code := none, message := "JobPost validation failed" }
    else Except.error { code := none, message := "endDate must be a future date" }
  | _ => Except.error { code := none, message := "JobPost validation failed" }

/-- The bodies `getJobById` sends. -/
inductive GetJobBody where
  | job (j : JobPost)
  | error (msg : String)
deriving DecidableEq, Repr

/-- The query `JobPost.findById`. -/
def JobPost.findById (jobId : Nat) (jobs : List JobPost) : Option JobPost :=
  jobs.find? (fun j => decide (j.id = jobId))

/-- The handler `getJobById` (lines 184-196) read at time `now`, with the
JobPost collection it leaves behind. -/
def getJobById (now : Int) (jobId : Nat) (jobs : List JobPost) :
    Response GetJobBody × List JobPost :=
  match JobPost.findById jobId jobs with
  | none => ({ status := 404, body := GetJobBody.error "Job not found" }, jobs)
  | some job =>
    if (match job.endDate with
        | some ts => decide (ts < now)
        | none => false) then
      ({ status := 404, body := GetJobBody.error "This job post has expired" }, jobs)
    else ({ status := 200, body := GetJobBody.job job }, jobs)

/-! ## `applyToJob` -/

/-- A `JobApplication` document: the pair under the unique index. -/
structure JobApplication where
  job : Nat
  user : Nat
deriving DecidableEq, Repr

/-- The Content Store as `applyToJob` sees it. -/
structure JobDb where
  jobs : List JobPost
  applications : List JobApplication
deriving DecidableEq, Repr

/-- The call `JobApplication.create`: the unique index on `(job, user)` rejects a
second document with the same pair with error code 11000. -/
def JobApplication.create (a : JobApplication) (apps : List JobApplication) :
    Except JsError (List JobApplication) :=
  if a ∈ apps then
    Except.error { code := some 11000, message := "E11000 duplicate key error" }
  else Except.ok (apps ++ [a])

/-- The call `JobPost.updateOne({ _id }, { $inc: { applicationsCount: 1 } })`. -/
def incApplicationsCount (jobId : Nat) : List JobPost → List JobPost
  | [] => []
  | j :: js =>
    if j.id = jobId then { j with applicationsCount := j.applicationsCount + 1 } :: js
    else j :: incApplicationsCount jobId js

/-- The bodies `applyToJob` sends. -/
inductive ApplyBody where
  | result (success : Bool) (applicationsCount : Int) (applied : Bool) (new : Bool)
  | error (msg : String)
deriving DecidableEq, Repr

/-- The expression `Number(j?.applicationsCount || 0)`. -/
def countOrZero (j : Option JobPost) : Int :=
  match j with
  | some job => job.applicationsCount
  | none => 0

/-- The handler `applyToJob` (lines 251-280): `create` is the insert into the
applications collection, which may throw; the reads of `JobPost` and its `$inc`
update are taken to succeed. -/
def applyToJob (create : JobApplication → List JobApplication → Except JsError (List JobApplication))
    (now : Int) (jobId : Nat) (userId : Option Nat) (db : JobDb) :
    Response ApplyBody × JobDb :=
  match userId with
  | none => ({ status := 401, body := ApplyBody.error "Unauthorized" }, db)
  | some user =>
    match JobPost.findById jobId db.jobs with
    | none => ({ status := 404, body := ApplyBody.error "Job not found" }, db)
    | some job =>
      if (match job.endDate with
          | some ts => decide (ts < now)
          | none => false) then
        ({ status := 400, body := ApplyBody.error "Job has expired" }, db)
      else
        match create { job := job.id, user := user } db.applications with
        | Except.ok apps =>
          let jobs' := incApplicationsCount job.id db.jobs
          ({ status := 200,
             body := ApplyBody.result true (countOrZero (JobPost.findById job.id jobs')) true true },
           { jobs := jobs', applications := apps })
        | Except.error err =>
          if err.code = some 11000 then
            ({ status := 200,
               body := ApplyBody.result true (countOrZero (some job)) true false }, db)
          else ({ status := 400, body := ApplyBody.error "Failed to apply" }, db)

/-! ## Subscriptions -/

/-- The method `String.prototype.toLowerCase`, on the letters `A` to `Z`. -/
def jsLower (s : String) : String :=
  String.mk (s.data.map Char.toLower)

/-- A `Subscription` document as `.lean()` returns it: `types` is `none` when the
field is missing (a record older than the channel list), `unsubscribed` is `none`
when that field is missing; a missing `country` reads as the empty string. -/
structure Subscription where
  email : String
  country : String
  types : Option (List String)
  unsubscribed : Option Bool
deriving DecidableEq, Repr

/-- The body of an `unsubscribe` request. -/
structure UnsubscribeRequest where
  email : Option String
  type : Option String
deriving DecidableEq, Repr

/-- The expression `String(email || '').trim().toLowerCase()`. -/
def normalizeEmail (email : Option String) : String :=
  jsLower (jsTrim (orEmpty email))

/-- The query `Subscription.findOne({ email })`. -/
def Subscription.findOne (e : String) (store : List Subscription) : Option Subscription :=
  store.find? (fun r => decide (r.email = e))

/-- The call `Subscription.findOneAndUpdate({ email }, update, { new: true })`:
the first matching document is updated and returned, `none` when none matches. -/
def Subscription.findOneAndUpdate (e : String) (f : Subscription → Subscription) :
    List Subscription → Option (Subscription × List Subscription)
  | [] => none
  | r :: rs =>
    if r.email = e then some (f r, f r :: rs)
    else (Subscription.findOneAndUpdate e f rs).map (fun p => (p.1, r :: p.2))

/-- The call `Subscription.create`: the unique index on `email` rejects a second
document for the same address with error code 11000. -/
def Subscription.create (doc : Subscription) (store : List Subscription) :
    Except JsError (List Subscription) :=
  if (Subscription.findOne doc.email store).isSome then
    Except.error { code := some 11000, message := "E11000 duplicate key error" }
  else Except.ok (store ++ [doc])

/-- The update operator `$pull` on `types`. -/
def pull (t : String) (types : Option (List String)) : Option (List String) :=
  types.map (fun ts => ts.filter (fun x => decide (x ≠ t)))

/-- The bodies `subscribe` and `unsubscribe` send. -/
inductive SubscribeBody where
  | subscribed (message : String) (email : String) (country : String) (types : List String)
  | success
  | error (msg : String)
deriving DecidableEq, Repr

/-- The handler `unsubscribe` (lines 74-91). -/
def unsubscribe (req : UnsubscribeRequest) (store : List Subscription) :
    Response SubscribeBody × List Subscription :=
  let e := normalizeEmail req.email
  if e = "" then ({ status := 400, body := SubscribeBody.error "Email is required" }, store)
  else
    let t := jsLower (interp req.type)
    let pulled : Option (List String) → Option (List String) :=
      if truthy req.type ∧ (t = "job" ∨ t = "blog") then pull t else id
    match Subscription.findOneAndUpdate e
        (fun r => { r with unsubscribed := some true, types := pulled r.types }) store with
    | some (_, store') => ({ status := 200, body := SubscribeBody.success }, store')
    | none => ({ status := 404, body := SubscribeBody.error "Subscriber not found" }, store)

/-- The filter of the audience query of `createJob` (jobController.js lines
65-71): `unsubscribed` is not `true`, and `types` holds `job` or is missing. -/
def jobAudienceFilter (s : Subscription) : Bool :=
  decide (s.unsubscribed ≠ some true) &&
  (match s.types with
   | some ts => decide ("job" ∈ ts)
   | none => true)

/-- The filter of the audience query of `createBlog` (blogController.js line
35): `unsubscribed` is not `true`, and `types` holds `blog`. -/
def blogAudienceFilter (s : Subscription) : Bool :=
  decide (s.unsubscribed ≠ some true) &&
  (match s.types with
   | some ts => decide ("blog" ∈ ts)
   | none => false)

/-- The query `Subscription.find(filter).lean()` when the store answers. -/
def Subscription.find (store : List Subscription) (filter : Subscription → Bool) :
    Except JsError (List Subscription) :=
  Except.ok (store.filter filter)

/-! ## Notification pipeline -/

/-- Truthiness of a numeric property: defined and not zero. -/
def numTruthy : Option Int → Bool
  | some n => decide (n ≠ 0)
  | none => false

/-- The interpolation of `n ?? ''` for a numeric property. -/
def nullishText : Option Int → String
  | some n => toString n
  | none => ""

/-- The helper `salaryLabel` of `createJob` (lines 86-97). -/
def salaryLabel (job : JobPost) : String :=
  let currency := orEmpty job.currency
  let per := orEmpty job.salaryPer
  if numTruthy job.salaryMin || numTruthy job.salaryMax then
    let range := jsTrim (nullishText job.salaryMin ++
      (if numTruthy job.salaryMin && numTruthy job.salaryMax then " - " else "") ++
      nullishText job.salaryMax)
    let capPer := if per = "" then "" else " / " ++ per
    (if currency = "" then "" else currency ++ " ") ++ range ++ capPer
  else ""

/-- A message handed to `transporter.sendMail`.  The HTML body is the fixed
markup of the template around the values listed in `html`, in template order;
a value the template leaves out is absent from the list. -/
structure Mail where
  recipient : String
  subject : String
  text : String
  html : List String
deriving DecidableEq, Repr

/-- How one `sendMail` call ends: its promise fulfils, its promise rejects, or
the call itself throws. -/
inductive SendOutcome where
  | fulfilled
  | rejected
  | threw
deriving DecidableEq, Repr

/-- What the notification task calls: the audience query (which may throw) and
the mail transport. -/
structure NotifyEnv where
  find : (Subscription → Bool) → Except JsError (List Subscription)
  sendMail : Nat → Mail → SendOutcome
  frontendBase : String

/-- A list of characters that neither starts nor ends with white space: what
`trim` leaves, and what it leaves alone. -/
def TrimmedEnds (l : List Char) : Prop :=
  (∀ c, l.head? = some c → isJsSpace c = false) ∧
  (∀ c, l.getLast? = some c → isJsSpace c = false)

/-- A sequence of `upsertCompanyFromJob` calls, one per job, in order. -/
def upsertAll (coll : CompanyColl) (jobs : List JobPost) (store : List Company) :
    Except JsError (List Company) :=
  jobs.foldlM (fun s j => upsertCompanyFromJob coll j s) store

/-- The most recent truthy value of a job field along a sequence of jobs, as the
schema setter stores it; `old` when no job of the sequence has one. -/
def lastTruthy (field : JobPost → Option String) (jobs : List JobPost)
    (old : Option String) : Option String :=
  match jobs.reverse.find? (fun j => truthy (field j)) with
  | some j => (field j).map jsTrim
  | none => old

/-- The location as the specification words it: "Remote" for a remote job, else
the non-empty members of city, state, country joined with a comma and a space. -/
def locationBySpec (job : JobPost) : String :=
  if job.remote then "Remote"
  else ", ".intercalate (([job.city, job.state, job.country].filter truthy).map interp)

/-! ## Sample documents -/

/-- A remote job of company Acme with empty city and state. -/
def acmeRemote : JobPost :=
  { id := 1, title := "Engineer", company := "Acme", companyLogo := some "acme.png",
    category := some "IT", jobType := some "Full-time", remote := true,
    city := some "", state := some "", country := some "US",
    salaryMin := none, salaryMax := none, currency := some "USD", salaryPer := some "Year",
    endDate := some 2000, status := some JobStatus.Active, applicationsCount := 0 }

/-- An on-site job of company Acme without a logo. -/
def acmeOnSite : JobPost :=
  { acmeRemote with
    id := 2, remote := false, companyLogo := none,
    city := some "Lahore", state := some "Punjab", country := some "PK" }

/-- An on-site job of company Acme whose city and state are empty. -/
def acmeNoCity : JobPost :=
  { acmeRemote with id := 3, remote := false }

/-- A job of company Acme whose end date 1000 lies before the sample time 2000. -/
def acmeExpired : JobPost :=
  { acmeOnSite with id := 4, endDate := some 1000 }

/-- A Company collection that is unreachable: every call throws. -/
def outage : CompanyColl where
  findOneAndUpdate := fun _ _ _ => Except.error { code := none, message := "connection lost" }
  updateOne := fun _ _ _ => Except.error { code := none, message := "connection lost" }

/-- A request body for the job `acmeRemote`, ending at time 2000. -/
def acmeRequest : JobRequest :=
  { title := some "Engineer", company := some "Acme", companyLogo := some "acme.png",
    category := some "IT", jobType := some "Full-time", remote := true,
    city := some "", state := some "", country := some "US",
    salaryMin := RawNumber.absent, salaryMax := RawNumber.absent,
    currency := some "USD", salaryPer := some "Year", endDate := EndRaw.date 2000,
    workMode := some "Remote", shortDescription := some "Build things",
    longDescription := some "Build many things", experience := some "2 years",
    employmentLevel := some "Mid", apply := some "jobs@acme.test" }

/-- A run at time 1000 in which `JobPost.create` stores `acmeRemote` while the
Company collection is unreachable and the JSON-LD builder throws. -/
def outageEnv : CreateJobEnv where
  now := 1000
  buildJobJsonLd := fun _ => Except.error { code := none, message := "no schema" }
  jobCreate := fun _ jobs => Except.ok (acmeRemote, jobs ++ [acmeRemote])
  companies := outage

/-- A record of company Globex, which has no job, with a stale counter. -/
def globexStale : Company :=
  { companyName := "Globex", logo := none, location := some "Remote", industry := none,
    openPositions := 7, featured := true, description := some "old" }

/-- A record of company Acme whose counter has drifted to 40. -/
def acmeDrifted : Company :=
  { companyName := "Acme", logo := none, location := none, industry := none,
    openPositions := 40, featured := false, description := none }

/-- A subscription record older than the channel list: no `types`, no flag. -/
def legacySub : Subscription :=
  { email := "old@x.com", country := "", types := none, unsubscribed := none }

/-- An active subscription to both channels. -/
def bothSub : Subscription :=
  { email := "a@x.com", country := "PK", types := some ["job", "blog"],
    unsubscribed := some false }

/-- An active subscription to the blog channel only. -/
def blogOnlySub : Subscription :=
  { email := "b@x.com", country := "", types := some ["blog"], unsubscribed := some false }

/-- A request body for the on-site job `acmeOnSite` in Lahore, ending at 2000. -/
def lahoreRequest : JobRequest :=
  { acmeRequest with
    remote := false, companyLogo := none,
    city := some "Lahore", state := some "Punjab", country := some "PK" }

/-- The payload `createJob` builds from `lahoreRequest` when no JSON-LD is made. -/
def lahorePayload : JobPayload :=
  { request := lahoreRequest, salaryMin := none, salaryMax := none, schemaJsonLd := none }

/-- A notification environment in which the audience query throws. -/
def deafNotify : NotifyEnv where
  find := fun _ => Except.error { code := none, message := "query failed" }
  sendMail := fun _ _ => SendOutcome.threw
  frontendBase := "http://localhost:5174"

theorem apply_companyName (u : CompanyUpdate) (r : Company) :
    (u.apply r).companyName = r.companyName := rfl

theorem updateFirst_none_iff (name : String) (f : Company → Company) (store : List Company) :
    updateFirst name f store = none ↔ Company.findOne name store = none := by
  induction store with
  | nil => simp [updateFirst, Company.findOne]
  | cons r rs ih =>
    by_cases h : r.companyName = name
    · simp [updateFirst, Company.findOne, h]
    · simpa [updateFirst, Company.findOne, h] using ih

theorem findOne_updateFirst_same (name : String) (f : Company → Company)
    (hf : ∀ r, (f r).companyName = r.companyName) (store store' : List Company)
    (h : updateFirst name f store = some store') :
    Company.findOne name store' = (Company.findOne name store).map f := by
  induction store generalizing store' with
  | nil => simp [updateFirst] at h
  | cons r rs ih =>
    by_cases hr : r.companyName = name
    · simp only [updateFirst, hr, if_true, Option.some.injEq] at h
      subst h
      simp [Company.findOne, hr, hf]
    · simp only [updateFirst, hr, if_false, Option.map_eq_some'] at h
      obtain ⟨rs', h1, h2⟩ := h
      subst h2
      have := ih rs' h1
      simpa [Company.findOne, hr] using this

theorem findOne_updateFirst_other (name other : String) (hne : other ≠ name)
    (f : Company → Company)
    (hf : ∀ r, (f r).companyName = r.companyName) (store store' : List Company)
    (h : updateFirst name f store = some store') :
    Company.findOne other store' = Company.findOne other store := by
  induction store generalizing store' with
  | nil => simp [updateFirst] at h
  | cons r rs ih =>
    by_cases hr : r.companyName = name
    · simp only [updateFirst, hr, if_true, Option.some.injEq] at h
      subst h
      have h1 : ¬ (f r).companyName = other := by rw [hf, hr]; exact fun e => hne e.symm
      have h2 : ¬ r.companyName = other := by rw [hr]; exact fun e => hne e.symm
      simp [Company.findOne, h1, h2]
    · simp only [updateFirst, hr, if_false, Option.map_eq_some'] at h
      obtain ⟨rs', h1, h2⟩ := h
      subst h2
      have := ih rs' h1
      by_cases ho : r.companyName = other
      · simp [Company.findOne, ho]
      · simpa [Company.findOne, ho] using this

theorem findOne_append_single (name : String) (store : List Company) (x : Company) :
    Company.findOne name (store ++ [x]) =
      (Company.findOne name store).orElse
        (fun _ => if x.companyName = name then some x else none) := by
  induction store with
  | nil => by_cases h : x.companyName = name <;> simp [Company.findOne, h]
  | cons r rs ih =>
    by_cases hr : r.companyName = name
    · simp [Company.findOne, hr]
    · simpa [Company.findOne, hr] using ih

theorem findOne_upsertDoc_same (name : String) (u : CompanyUpdate) (store : List Company) :
    Company.findOne name (upsertDoc name u store) =
      some (u.apply ((Company.findOne name store).getD (Company.blank name))) := by
  unfold upsertDoc
  cases h : updateFirst name u.apply store with
  | some store' =>
    have h1 := findOne_updateFirst_same name u.apply (apply_companyName u) store store' h
    cases hf : Company.findOne name store with
    | none => rw [(updateFirst_none_iff name u.apply store).2 hf] at h; cases h
    | some r => simp [h1, hf]
  | none =>
    have hf := (updateFirst_none_iff name u.apply store).1 h
    simp [findOne_append_single, hf, apply_companyName, Company.blank]

theorem findOne_upsertDoc_other (name other : String) (hne : other ≠ name)
    (u : CompanyUpdate) (store : List Company) :
    Company.findOne other (upsertDoc name u store) = Company.findOne other store := by
  unfold upsertDoc
  cases h : updateFirst name u.apply store with
  | some store' =>
    exact findOne_updateFirst_other name other hne u.apply (apply_companyName u) store store' h
  | none =>
    have : ¬ name = other := fun e => hne e.symm
    cases hf : Company.findOne other store <;>
      simp [findOne_append_single, hf, apply_companyName, Company.blank, this]

theorem upsertCompanyFromJob_mongo (job : JobPost) (store : List Company)
    (hc : job.company ≠ "") :
    upsertCompanyFromJob mongo job store =
      Except.ok (upsertDoc job.company (upsertUpdate job) store) := by
  simp [upsertCompanyFromJob, mongo, hc, Except.tryCatch]

theorem upsertAll_mongo (c : String) (hc : c ≠ "") (jobs : List JobPost)
    (hjobs : ∀ j ∈ jobs, j.company = c) (store : List Company) :
    upsertAll mongo jobs store =
      Except.ok (jobs.foldl (fun s j => upsertDoc c (upsertUpdate j) s) store) := by
  induction jobs generalizing store with
  | nil => rfl
  | cons j js ih =>
    have hj : j.company = c := hjobs j (List.mem_cons_self _ _)
    have hjc : j.company ≠ "" := by rw [hj]; exact hc
    have ih2 := ih (fun x hx => hjobs x (List.mem_cons_of_mem _ hx))
      (upsertDoc c (upsertUpdate j) store)
    unfold upsertAll at ih2 ⊢
    rw [List.foldlM_cons, upsertCompanyFromJob_mongo j store hjc, hj]
    simpa [bind, Except.bind] using ih2

theorem foldl_upsert_counter (c : String) (jobs : List JobPost) (store : List Company)
    (r0 : Company) (h0 : Company.findOne c store = some r0) :
    ∃ r, Company.findOne c (jobs.foldl (fun s j => upsertDoc c (upsertUpdate j) s) store)
        = some r ∧ r.openPositions = r0.openPositions + jobs.length := by
  induction jobs generalizing store r0 with
  | nil => exact ⟨r0, h0, by simp⟩
  | cons j js ih =>
    have h1 := findOne_upsertDoc_same c (upsertUpdate j) store
    rw [h0] at h1
    obtain ⟨r, hr, hn⟩ := ih (upsertDoc c (upsertUpdate j) store) _ h1
    refine ⟨r, by simpa using hr, ?_⟩
    rw [hn]
    simp [CompanyUpdate.apply, upsertUpdate, CounterOp.apply]
    ring

theorem setField_orUndefined (v old : Option String) :
    setField (orUndefined v) old = if truthy v then v.map jsTrim else old := by
  cases v with
  | none => simp [orUndefined, truthy, setField]
  | some x =>
    by_cases h : x = ""
    · simp [orUndefined, truthy, setField, h]
    · simp [orUndefined, truthy, setField, h]

theorem lastTruthy_concat (field : JobPost → Option String) (l : List JobPost) (a : JobPost)
    (old : Option String) :
    lastTruthy field (l ++ [a]) old =
      if truthy (field a) then (field a).map jsTrim else lastTruthy field l old := by
  unfold lastTruthy
  by_cases h : truthy (field a) = true
  · simp [List.find?, h]
  · simp [List.find?, h]

theorem getD_blank_logo (c : String) (x : Option Company) :
    (x.getD (Company.blank c)).logo = x.bind (fun r => r.logo) := by
  cases x <;> rfl

theorem getD_blank_industry (c : String) (x : Option Company) :
    (x.getD (Company.blank c)).industry = x.bind (fun r => r.industry) := by
  cases x <;> rfl

theorem foldl_upsert_meta (c : String) (jobs : List JobPost) (store : List Company) :
    (Company.findOne c (jobs.foldl (fun s j => upsertDoc c (upsertUpdate j) s) store)).bind
        (fun r => r.logo) =
      lastTruthy (fun j => j.companyLogo) jobs ((Company.findOne c store).bind (fun r => r.logo)) ∧
    (Company.findOne c (jobs.foldl (fun s j => upsertDoc c (upsertUpdate j) s) store)).bind
        (fun r => r.industry) =
      lastTruthy (fun j => j.category) jobs
        ((Company.findOne c store).bind (fun r => r.industry)) := by
  induction jobs using List.reverseRecOn with
  | nil => simp [lastTruthy]
  | append_singleton l a ih =>
    rw [List.foldl_append, lastTruthy_concat, lastTruthy_concat]
    simp only [List.foldl_cons, List.foldl_nil, findOne_upsertDoc_same, Option.some_bind]
    simp only [CompanyUpdate.apply, getD_blank_logo, getD_blank_industry, ih.1, ih.2]
    exact ⟨setField_orUndefined _ _, setField_orUndefined _ _⟩

theorem upsertLocation_eq_spec (job : JobPost) (city state country : String)
    (hcity : job.city = some city) (hstate : job.state = some state)
    (hcountry : job.country = some country)
    (h1 : city ≠ "") (h2 : state ≠ "") (h3 : country ≠ "") :
    upsertLocation job = locationBySpec job := by
  unfold upsertLocation locationBySpec
  cases job.remote
  · simp [hcity, hstate, hcountry, truthy, interp, h1, h2, h3, List.filter, String.intercalate,
      String.intercalate.go, String.append_assoc]
  · rfl

/-! ## Lemmas on the aggregation -/

theorem groupStage_mem (jobs : List JobPost) (g : CompanyGroup) (hg : g ∈ groupStage jobs) :
    g.name ∈ jobs.map (fun j => j.company) ∧
    g.openPositions = jobs.countP (fun x => decide (x.company = g.name)) := by
  induction jobs with
  | nil => simp [groupStage] at hg
  | cons j js ih =>
    simp only [groupStage, List.mem_cons, List.mem_filter] at hg
    rcases hg with rfl | ⟨hmem, hne⟩
    · simp
    · obtain ⟨h1, h2⟩ := ih hmem
      have hne' : ¬ j.company = g.name := by
        intro e
        simp [e] at hne
      refine ⟨by simp only [List.map_cons, List.mem_cons]; exact Or.inr h1, ?_⟩
      rw [h2, List.countP_cons]
      simp [hne']

theorem groupStage_names_nodup (jobs : List JobPost) :
    ((groupStage jobs).map (fun g => g.name)).Nodup := by
  induction jobs with
  | nil => simp [groupStage]
  | cons j js ih =>
    simp only [groupStage, List.map_cons, List.nodup_cons]
    refine ⟨?_, ?_⟩
    · intro hmem
      obtain ⟨g, hg, hname⟩ := List.mem_map.1 hmem
      have := (List.mem_filter.1 hg).2
      simp [hname] at this
    · exact (List.Nodup.sublist ((List.filter_sublist _).map _) ih)

theorem groupStage_covers (jobs : List JobPost) (c : String)
    (hc : c ∈ jobs.map (fun j => j.company)) :
    ∃ g ∈ groupStage jobs, g.name = c := by
  induction jobs with
  | nil => simp at hc
  | cons j js ih =>
    by_cases h : j.company = c
    · exact ⟨_, List.mem_cons_self _ _, h⟩
    · simp only [List.map_cons, List.mem_cons] at hc
      rcases hc with e | hmem
      · exact absurd e.symm h
      · obtain ⟨g, hg, hname⟩ := ih hmem
        refine ⟨g, ?_, hname⟩
        simp only [groupStage, List.mem_cons, List.mem_filter]
        right
        refine ⟨hg, ?_⟩
        simp only [hname, ne_eq, decide_eq_true_eq]
        exact fun e => h e.symm

/-! ## Lemmas on the reconciliation loop -/

theorem mongo_updateOne_store (name : String) (u : CompanyUpdate) (store : List Company) :
    ∃ res, mongo.updateOne name u store = Except.ok (res, upsertDoc name u store) ∧
      ((Company.findOne name store = none ∧ res.upsertedCount = 1 ∧ res.matchedCount = 0) ∨
       (Company.findOne name store ≠ none ∧ res.upsertedCount = 0 ∧ res.matchedCount = 1)) := by
  have hm : mongo.updateOne name u store =
      (match updateFirst name u.apply store with
       | some store' => Except.ok ({ matchedCount := 1, upsertedCount := 0 }, store')
       | none =>
         Except.ok ({ matchedCount := 0, upsertedCount := 1 },
           store ++ [u.apply (Company.blank name)])) := rfl
  rw [hm]
  unfold upsertDoc
  cases h : updateFirst name u.apply store with
  | some store' =>
    refine ⟨{ matchedCount := 1, upsertedCount := 0 }, rfl, Or.inr ⟨?_, rfl, rfl⟩⟩
    intro hf
    rw [(updateFirst_none_iff name u.apply store).2 hf] at h
    cases h
  | none =>
    exact ⟨{ matchedCount := 0, upsertedCount := 1 }, rfl,
      Or.inl ⟨(updateFirst_none_iff name u.apply store).1 h, rfl, rfl⟩⟩

theorem backfillLoop_mongo (gs : List CompanyGroup)
    (hnd : (gs.map (fun g => g.name)).Nodup) (created updated : Nat) (store : List Company) :
    backfillLoop mongo gs created updated store =
      (Except.ok
        (created + gs.countP (fun g => decide (Company.findOne g.name store = none)),
         updated + gs.countP (fun g => decide (Company.findOne g.name store ≠ none))),
       gs.foldl (fun s g => upsertDoc g.name (backfillUpdate g) s) store) := by
  induction gs generalizing created updated store with
  | nil => simp [backfillLoop]
  | cons g gs ih =>
    simp only [List.map_cons, List.nodup_cons] at hnd
    obtain ⟨hnot, hnd'⟩ := hnd
    have hother : ∀ x ∈ gs, Company.findOne x.name
        (upsertDoc g.name (backfillUpdate g) store) = Company.findOne x.name store := by
      intro x hx
      apply findOne_upsertDoc_other
      intro e
      exact hnot (List.mem_map.2 ⟨x, hx, e⟩)
    have hc1 : gs.countP (fun x => decide (Company.findOne x.name
        (upsertDoc g.name (backfillUpdate g) store) = none)) =
        gs.countP (fun x => decide (Company.findOne x.name store = none)) :=
      List.countP_congr (fun x hx => by rw [hother x hx])
    have hc2 : gs.countP (fun x => decide (Company.findOne x.name
        (upsertDoc g.name (backfillUpdate g) store) ≠ none)) =
        gs.countP (fun x => decide (Company.findOne x.name store ≠ none)) :=
      List.countP_congr (fun x hx => by rw [hother x hx])
    obtain ⟨res, hres, hcase⟩ := mongo_updateOne_store g.name (backfillUpdate g) store
    rcases hcase with ⟨hf, hu, hm⟩ | ⟨hf, hu, hm⟩
    · simp only [backfillLoop, hres, hu, Nat.lt_one_iff, if_true, ih hnd', hc1, hc2,
        List.countP_cons, hf, List.foldl_cons]
      simp
      omega
    · simp only [backfillLoop, hres, hu, hm, lt_self_iff_false, if_false, ih hnd', hc1, hc2,
        List.countP_cons, List.foldl_cons]
      simp [hf]
      omega

theorem foldl_backfill_findOne_other (gs : List CompanyGroup) (c : String)
    (hc : c ∉ gs.map (fun g => g.name)) (store : List Company) :
    Company.findOne c (gs.foldl (fun s g => upsertDoc g.name (backfillUpdate g) s) store) =
      Company.findOne c store := by
  induction gs generalizing store with
  | nil => rfl
  | cons g gs ih =>
    simp only [List.map_cons, List.mem_cons, not_or] at hc
    rw [List.foldl_cons, ih hc.2, findOne_upsertDoc_other g.name c hc.1]

theorem foldl_backfill_findOne_mem (gs : List CompanyGroup)
    (hnd : (gs.map (fun g => g.name)).Nodup) (g : CompanyGroup) (hg : g ∈ gs)
    (store : List Company) :
    Company.findOne g.name (gs.foldl (fun s g => upsertDoc g.name (backfillUpdate g) s) store) =
      some ((backfillUpdate g).apply
        ((Company.findOne g.name store).getD (Company.blank g.name))) := by
  induction gs generalizing store with
  | nil => simp at hg
  | cons h t ih =>
    simp only [List.map_cons, List.nodup_cons] at hnd
    obtain ⟨hnot, hnd'⟩ := hnd
    rw [List.foldl_cons]
    rcases List.mem_cons.1 hg with rfl | hmem
    · rw [foldl_backfill_findOne_other t g.name hnot, findOne_upsertDoc_same]
    · have hne : g.name ≠ h.name := by
        intro e
        exact hnot (List.mem_map.2 ⟨g, hmem, e⟩)
      rw [ih hnd' hmem, findOne_upsertDoc_other h.name g.name hne]

theorem reconcileAll_eq (jobs : List JobPost) (store : List Company) :
    reconcileAll jobs store =
      ({ status := 200,
         body := BackfillBody.summary (groupStage jobs).length
           ((groupStage jobs).countP (fun g => decide (Company.findOne g.name store = none)))
           ((groupStage jobs).countP (fun g => decide (Company.findOne g.name store ≠ none))) },
       (groupStage jobs).foldl (fun s g => upsertDoc g.name (backfillUpdate g) s) store) := by
  simp [reconcileAll, backfillCompaniesFromJobs,
    backfillLoop_mongo (groupStage jobs) (groupStage_names_nodup jobs) 0 0 store]

theorem updateFirst_fixed (name : String) (f : Company → Company) (store : List Company)
    (r : Company) (h : Company.findOne name store = some r) (hf : f r = r) :
    updateFirst name f store = some store := by
  induction store with
  | nil => simp [Company.findOne] at h
  | cons x xs ih =>
    by_cases hx : x.companyName = name
    · simp only [Company.findOne, List.find?, hx, decide_True, Option.some.injEq] at h
      subst h
      simp [updateFirst, hx, hf]
    · have h' : Company.findOne name xs = some r := by
        simpa [Company.findOne, hx] using h
      simp [updateFirst, hx, ih h']

theorem upsertDoc_fixed (name : String) (u : CompanyUpdate) (store : List Company)
    (r : Company) (h : Company.findOne name store = some r) (hf : u.apply r = r) :
    upsertDoc name u store = store := by
  unfold upsertDoc
  rw [updateFirst_fixed name u.apply store r h hf]

theorem setField_idem (v old : Option String) :
    setField v (setField v old) = setField v old := by
  cases v <;> rfl

theorem backfillUpdate_apply_idem (g : CompanyGroup) (r : Company) :
    (backfillUpdate g).apply ((backfillUpdate g).apply r) = (backfillUpdate g).apply r := by
  simp [CompanyUpdate.apply, setField_idem, backfillUpdate, CounterOp.apply]

theorem foldl_backfill_fixed (gs : List CompanyGroup) (store : List Company)
    (h : ∀ g ∈ gs, upsertDoc g.name (backfillUpdate g) store = store) :
    gs.foldl (fun s g => upsertDoc g.name (backfillUpdate g) s) store = store := by
  induction gs with
  | nil => rfl
  | cons g gs ih =>
    rw [List.foldl_cons, h g (List.mem_cons_self _ _)]
    exact ih (fun x hx => h x (List.mem_cons_of_mem _ hx))

theorem updateFirst_get_other (name : String) (f : Company → Company)
    (store store' : List Company) (h : updateFirst name f store = some store')
    (i : Nat) (r : Company) (hr : store[i]? = some r) (hne : r.companyName ≠ name) :
    store'[i]? = some r := by
  induction store generalizing store' i with
  | nil => simp [updateFirst] at h
  | cons x xs ih =>
    by_cases hx : x.companyName = name
    · simp only [updateFirst, hx, if_true, Option.some.injEq] at h
      subst h
      cases i with
      | zero =>
        simp only [List.getElem?_cons_zero, Option.some.injEq] at hr
        subst hr
        exact absurd hx hne
      | succ k => simpa using hr
    · simp only [updateFirst, hx, if_false, Option.map_eq_some'] at h
      obtain ⟨xs', h1, h2⟩ := h
      subst h2
      cases i with
      | zero => simpa using hr
      | succ k =>
        simp only [List.getElem?_cons_succ] at hr ⊢
        exact ih xs' h1 k hr

theorem upsertDoc_get_other (name : String) (u : CompanyUpdate) (store : List Company)
    (i : Nat) (r : Company) (hr : store[i]? = some r) (hne : r.companyName ≠ name) :
    (upsertDoc name u store)[i]? = some r := by
  unfold upsertDoc
  cases h : updateFirst name u.apply store with
  | some store' => exact updateFirst_get_other name u.apply store store' h i r hr hne
  | none =>
    have hlt : i < store.length := by
      by_contra hge
      rw [List.getElem?_eq_none (Nat.le_of_not_lt hge)] at hr
      cases hr
    show (store ++ [u.apply (Company.blank name)])[i]? = some r
    rw [List.getElem?_append_left hlt]
    exact hr

theorem foldl_backfill_get_other (gs : List CompanyGroup) (store : List Company)
    (i : Nat) (r : Company) (hr : store[i]? = some r)
    (hne : ∀ g ∈ gs, r.companyName ≠ g.name) :
    (gs.foldl (fun s g => upsertDoc g.name (backfillUpdate g) s) store)[i]? = some r := by
  induction gs generalizing store with
  | nil => exact hr
  | cons g gs ih =>
    rw [List.foldl_cons]
    exact ih _ (upsertDoc_get_other g.name _ store i r hr (hne g (List.mem_cons_self _ _)))
      (fun x hx => hne x (List.mem_cons_of_mem _ hx))

theorem set_count_or_zero (n : Nat) :
    (if n = 0 then (0 : Int) else (n : Int)) = (n : Int) := by
  split
  · next h => simp [h]
  · rfl

theorem reconcileAll_findOne (jobs : List JobPost) (store : List Company) (c : String)
    (hc : c ∈ jobs.map (fun j => j.company)) :
    ∃ g ∈ groupStage jobs, g.name = c ∧
      Company.findOne c (reconcileAll jobs store).2 =
        some ((backfillUpdate g).apply ((Company.findOne c store).getD (Company.blank c))) := by
  obtain ⟨g, hg, hname⟩ := groupStage_covers jobs c hc
  have hfind := foldl_backfill_findOne_mem (groupStage jobs) (groupStage_names_nodup jobs)
    g hg store
  rw [reconcileAll_eq]
  subst hname
  exact ⟨g, hg, rfl, hfind⟩

theorem countP_split (p q : JobPost → Bool) (jobs : List JobPost) :
    jobs.countP p = jobs.countP (fun j => q j && p j) + jobs.countP (fun j => !q j && p j) := by
  induction jobs with
  | nil => rfl
  | cons j js ih =>
    simp only [List.countP_cons, ih]
    cases hq : q j <;> cases hp : p j <;> simp <;> omega

theorem countP_eq_card_filter (l : List String) (hnd : l.Nodup) (p : String → Prop)
    [DecidablePred p] :
    l.countP (fun n => decide (p n)) = (l.toFinset.filter p).card := by
  rw [List.countP_eq_length_filter, ← List.toFinset_card_of_nodup (hnd.filter _),
    List.toFinset_filter]
  congr 1
  ext n
  simp

theorem groupStage_names_toFinset (jobs : List JobPost) :
    ((groupStage jobs).map (fun g => g.name)).toFinset =
      (jobs.map (fun j => j.company)).toFinset := by
  ext c
  simp only [List.mem_toFinset]
  constructor
  · intro h
    obtain ⟨g, hg, hname⟩ := List.mem_map.1 h
    rw [← hname]
    exact (groupStage_mem jobs g hg).1
  · intro h
    obtain ⟨g, hg, hname⟩ := groupStage_covers jobs c h
    exact List.mem_map.2 ⟨g, hg, hname⟩

/-! ## Lemmas on applications -/

theorem findById_id (jobId : Nat) (jobs : List JobPost) (job : JobPost)
    (h : JobPost.findById jobId jobs = some job) : job.id = jobId := by
  have := List.find?_some h
  simpa using this

theorem findById_incApplicationsCount (jobId : Nat) (jobs : List JobPost) :
    JobPost.findById jobId (incApplicationsCount jobId jobs) =
      (JobPost.findById jobId jobs).map
        (fun j => { j with applicationsCount := j.applicationsCount + 1 }) := by
  induction jobs with
  | nil => rfl
  | cons j js ih =>
    by_cases h : j.id = jobId
    · simp [incApplicationsCount, JobPost.findById, h]
    · simpa [incApplicationsCount, JobPost.findById, h] using ih

/-! ## Lemmas on trimming and on created jobs -/

theorem dropWhile_self_of_head (l : List Char)
    (h : ∀ c, l.head? = some c → isJsSpace c = false) : l.dropWhile isJsSpace = l := by
  cases l with
  | nil => rfl
  | cons a as =>
    have := h a rfl
    simp [List.dropWhile, this]

theorem head_dropWhile_not_space (l : List Char) (c : Char)
    (h : (l.dropWhile isJsSpace).head? = some c) : isJsSpace c = false := by
  induction l with
  | nil => simp at h
  | cons a as ih =>
    by_cases ha : isJsSpace a = true
    · rw [List.dropWhile_cons_of_pos ha] at h
      exact ih h
    · rw [List.dropWhile_cons_of_neg ha] at h
      simp only [List.head?_cons, Option.some.injEq] at h
      subst h
      simpa using ha

theorem trim_of_trimmedEnds (l : List Char) (h : TrimmedEnds l) :
    ((l.dropWhile isJsSpace).reverse.dropWhile isJsSpace).reverse = l := by
  rw [dropWhile_self_of_head l h.1, dropWhile_self_of_head l.reverse, List.reverse_reverse]
  intro c hc
  rw [List.head?_reverse] at hc
  exact h.2 c hc

theorem trimmedEnds_trim (l : List Char) :
    TrimmedEnds ((l.dropWhile isJsSpace).reverse.dropWhile isJsSpace).reverse := by
  constructor
  · intro c hc
    rw [List.head?_reverse] at hc
    -- the last element of a suffix of `reverse d` is the head of `d`
    have hsuf := List.dropWhile_suffix (l := (l.dropWhile isJsSpace).reverse) isJsSpace
    obtain ⟨pre, hpre⟩ := hsuf
    have hne : ((l.dropWhile isJsSpace).reverse.dropWhile isJsSpace) ≠ [] := by
      intro e
      rw [e] at hc
      simp at hc
    have hlast : ((l.dropWhile isJsSpace).reverse).getLast? = some c := by
      rw [← hpre, List.getLast?_append_of_ne_nil _ hne]
      exact hc
    rw [List.getLast?_reverse] at hlast
    exact head_dropWhile_not_space l c hlast
  · intro c hc
    rw [List.getLast?_reverse] at hc
    exact head_dropWhile_not_space _ c hc

theorem trimmedEnds_append (a m b : List Char) (ha : TrimmedEnds a) (hb : TrimmedEnds b)
    (hane : a ≠ []) (hbne : b ≠ []) : TrimmedEnds (a ++ m ++ b) := by
  constructor
  · intro c hc
    cases a with
    | nil => exact absurd rfl hane
    | cons x xs =>
      simp only [List.cons_append, List.head?_cons, Option.some.injEq] at hc
      exact ha.1 c (by simp [hc])
  · intro c hc
    rw [List.getLast?_append_of_ne_nil _ hbne] at hc
    exact hb.2 c hc

theorem jsTrim_eq_self (s : String) (h : TrimmedEnds s.data) : jsTrim s = s := by
  unfold jsTrim
  rw [trim_of_trimmedEnds s.data h]

theorem requiredString_some (v : Option String) (x : String) (h : requiredString v = some x) :
    x ≠ "" ∧ TrimmedEnds x.data := by
  cases v with
  | none => simp [requiredString] at h
  | some s =>
    by_cases he : jsTrim s = ""
    · simp [requiredString, he] at h
    · simp only [requiredString, he, if_false, Option.some.injEq] at h
      subst h
      exact ⟨he, trimmedEnds_trim s.data⟩

theorem created_job_fields (nowV : Int) (newId : Nat) (p : JobPayload)
    (jobs jobs' : List JobPost) (job : JobPost)
    (h : JobPost.create nowV newId p jobs = Except.ok (job, jobs')) :
    job.company ≠ "" ∧
    ∃ city state country, job.city = some city ∧ job.state = some state ∧
      job.country = some country ∧ city ≠ "" ∧ state ≠ "" ∧ country ≠ "" ∧
      TrimmedEnds city.data ∧ TrimmedEnds country.data := by
  unfold JobPost.create at h
  split at h
  · next ts hts =>
    split at h
    · split at h
      · next created hnew =>
        simp only [Except.ok.injEq, Prod.mk.injEq] at h
        obtain ⟨hj, _⟩ := h
        subst hj
        simp only [newJobPost, Option.bind_eq_bind, Option.bind_eq_some, Option.pure_def,
          Option.some.injEq] at hnew
        obtain ⟨title, _, company, hco, category, _, jobType, _, _, _, country, hcn, city, hci,
          state, hst, _, _, _, _, _, _, _, _, _, _, hj⟩ := hnew
        subst hj
        exact ⟨(requiredString_some _ _ hco).1, city, state, country, rfl, rfl, rfl,
          (requiredString_some _ _ hci).1, (requiredString_some _ _ hst).1,
          (requiredString_some _ _ hcn).1, (requiredString_some _ _ hci).2,
          (requiredString_some _ _ hcn).2⟩
      · cases h
    · cases h
  · cases h

theorem jsTrim_upsertLocation (job : JobPost) (city state country : String)
    (hcity : job.city = some city) (hstate : job.state = some state)
    (hcountry : job.country = some country)
    (h1 : city ≠ "") (h2 : state ≠ "") (h3 : country ≠ "")
    (tc : TrimmedEnds city.data) (tk : TrimmedEnds country.data) :
    jsTrim (upsertLocation job) = upsertLocation job := by
  unfold upsertLocation
  cases job.remote
  · simp only [hcity, hstate, hcountry, truthy, interp, ne_eq, h2, not_false_eq_true,
      decide_True, if_true, Bool.false_eq_true, if_false]
    apply jsTrim_eq_self
    have hc : city.data ≠ [] := fun e => h1 (String.ext e)
    have hk : country.data ≠ [] := fun e => h3 (String.ext e)
    have := trimmedEnds_append city.data ((", " ++ state).data ++ ", ".data) country.data
      tc tk hc hk
    simpa [String.data_append, List.append_assoc] using this
  · simp only [if_true]
    decide

/-- C1. Incremental correctness: from a collection with no record for company
`c`, after a sequence of `N ≥ 1` successful `upsertCompanyFromJob` calls whose
jobs all name `c` (a published job has a non-empty company), the record for `c`
exists and its `openPositions` is `N`. -/
theorem incremental_counter_eq_length (c : String) (hc : c ≠ "") (jobs : List JobPost)
    (store : List Company) (hjobs : ∀ j ∈ jobs, j.company = c) (hN : 1 ≤ jobs.length)
    (habsent : Company.findOne c store = none) :
    ∃ store' r, upsertAll mongo jobs store = Except.ok store' ∧
      Company.findOne c store' = some r ∧ r.openPositions = jobs.length := by
  cases jobs with
  | nil => simp at hN
  | cons j js =>
    have h1 := findOne_upsertDoc_same c (upsertUpdate j) store
    rw [habsent] at h1
    obtain ⟨r, hr, hn⟩ := foldl_upsert_counter c js (upsertDoc c (upsertUpdate j) store) _ h1
    refine ⟨_, r, upsertAll_mongo c hc (j :: js) hjobs store, by simpa using hr, ?_⟩
    rw [hn]
    simp [CompanyUpdate.apply, upsertUpdate, CounterOp.apply, Company.blank]
    ring

/-- C1, at two Acme jobs published into an empty collection. -/
theorem incremental_counter_eq_length_witness :
    ∃ store' r, upsertAll mongo [acmeRemote, acmeOnSite] [] = Except.ok store' ∧
      Company.findOne "Acme" store' = some r ∧
      r.openPositions = ([acmeRemote, acmeOnSite].length : Int) :=
  incremental_counter_eq_length "Acme" (by decide) [acmeRemote, acmeOnSite] []
    (by intro j hj; simp at hj; rcases hj with rfl | rfl <;> rfl) (by decide) rfl

/-- C2 as stated fails: after the job `acmeRemote` (logo "acme.png") and then the
job `acmeOnSite` (no logo), the record still carries the logo of the first job,
not the missing logo of the last one. -/
theorem last_write_wins_logo_counterexample :
    ∃ store' r, upsertAll mongo [acmeRemote, acmeOnSite] [] = Except.ok store' ∧
      Company.findOne "Acme" store' = some r ∧
      r.logo = some "acme.png" ∧ acmeOnSite.companyLogo = none ∧
      r.logo ≠ acmeOnSite.companyLogo :=
  ⟨_, _, rfl, rfl, rfl, rfl, by decide⟩

/-- C2, amended. After a non-empty sequence of successful `upsertCompanyFromJob`
calls for one company, the record's location is the (trimmed) location derived
from the last job; its logo is the logo of the most recent job that has a
non-empty `companyLogo`, and is what it was before the sequence (absent for a new
record) when no job has one; likewise its industry and `category`. -/
theorem last_write_wins_truthy (c : String) (hc : c ≠ "") (jobs : List JobPost)
    (hne : jobs ≠ []) (hjobs : ∀ j ∈ jobs, j.company = c) (store : List Company) :
    ∃ store' r, upsertAll mongo jobs store = Except.ok store' ∧
      Company.findOne c store' = some r ∧
      r.location = some (jsTrim (upsertLocation (jobs.getLast hne))) ∧
      r.logo = lastTruthy (fun j => j.companyLogo) jobs
        ((Company.findOne c store).bind (fun r => r.logo)) ∧
      r.industry = lastTruthy (fun j => j.category) jobs
        ((Company.findOne c store).bind (fun r => r.industry)) := by
  have hm := foldl_upsert_meta c jobs store
  have hrun := upsertAll_mongo c hc jobs hjobs store
  have hsplit := List.dropLast_append_getLast hne
  have hfold : jobs.foldl (fun s j => upsertDoc c (upsertUpdate j) s) store =
      upsertDoc c (upsertUpdate (jobs.getLast hne))
        (jobs.dropLast.foldl (fun s j => upsertDoc c (upsertUpdate j) s) store) := by
    conv_lhs => rw [← hsplit]
    rw [List.foldl_append]
    rfl
  have hfind := findOne_upsertDoc_same c (upsertUpdate (jobs.getLast hne))
    (jobs.dropLast.foldl (fun s j => upsertDoc c (upsertUpdate j) s) store)
  rw [← hfold] at hfind
  rw [hfind] at hm
  exact ⟨_, _, hrun, hfind, rfl, hm.1, hm.2⟩

/-- C2 amended, at the two Acme jobs: the logo of the first job survives. -/
theorem last_write_wins_truthy_witness :
    ∃ store' r, upsertAll mongo [acmeRemote, acmeOnSite] [] = Except.ok store' ∧
      Company.findOne "Acme" store' = some r ∧
      r.location = some (jsTrim (upsertLocation
        ([acmeRemote, acmeOnSite].getLast (by decide)))) ∧
      r.logo = lastTruthy (fun j => j.companyLogo) [acmeRemote, acmeOnSite]
        ((Company.findOne "Acme" []).bind (fun r => r.logo)) ∧
      r.industry = lastTruthy (fun j => j.category) [acmeRemote, acmeOnSite]
        ((Company.findOne "Acme" []).bind (fun r => r.industry)) :=
  last_write_wins_truthy "Acme" (by decide) [acmeRemote, acmeOnSite] (by decide)
    (by intro j hj; simp at hj; rcases hj with rfl | rfl <;> rfl) []

/-- C3. Location derivation of the incremental update.  For every job marked
remote, whatever its city, state and country, the helper stores the location
"Remote" (so Acme, remote, with empty city and state gets location "Remote" and
counter 1).  For every job the helper can be handed, that is every document
`JobPost.create` returned, the stored location is exactly the wording of the
specification: "Remote", or the non-empty members of city, state, country joined
with a comma and a space. -/
theorem upsert_location_matches_spec (nowV : Int) (newId : Nat) (p : JobPayload)
    (jobs jobs' : List JobPost) (job : JobPost) (store : List Company)
    (hcreated : JobPost.create nowV newId p jobs = Except.ok (job, jobs')) :
    (∀ (j : JobPost) (s : List Company), j.remote = true → j.company ≠ "" →
      ∃ s' r, upsertCompanyFromJob mongo j s = Except.ok s' ∧
        Company.findOne j.company s' = some r ∧ r.location = some "Remote") ∧
    upsertCompanyFromJob mongo acmeRemote [] =
      Except.ok [{ companyName := "Acme", logo := some "acme.png", location := some "Remote",
                   industry := some "IT", openPositions := 1, featured := false,
                   description := none }] ∧
    (∃ store' r, upsertCompanyFromJob mongo job store = Except.ok store' ∧
      Company.findOne job.company store' = some r ∧
      r.location = some (locationBySpec job)) := by
  refine ⟨?_, rfl, ?_⟩
  · intro j s hr hc
    refine ⟨_, _, upsertCompanyFromJob_mongo j s hc, findOne_upsertDoc_same _ _ _, ?_⟩
    simp only [CompanyUpdate.apply, upsertUpdate, setField, upsertLocation, hr, if_true]
    rfl
  · obtain ⟨hc, city, state, country, hcity, hstate, hcountry, h1, h2, h3, tc, tk⟩ :=
      created_job_fields nowV newId p jobs jobs' job hcreated
    refine ⟨_, _, upsertCompanyFromJob_mongo job store hc, findOne_upsertDoc_same _ _ _, ?_⟩
    have ht := jsTrim_upsertLocation job city state country hcity hstate hcountry h1 h2 h3 tc tk
    have hs := upsertLocation_eq_spec job city state country hcity hstate hcountry h1 h2 h3
    rw [hs] at ht
    simp only [CompanyUpdate.apply, upsertUpdate, setField, hs, ht]

/-- C3, at the on-site job `JobPost.create` builds from `lahoreRequest`. -/
theorem upsert_location_matches_spec_witness :
    (∀ (j : JobPost) (s : List Company), j.remote = true → j.company ≠ "" →
      ∃ s' r, upsertCompanyFromJob mongo j s = Except.ok s' ∧
        Company.findOne j.company s' = some r ∧ r.location = some "Remote") ∧
    upsertCompanyFromJob mongo acmeRemote [] =
      Except.ok [{ companyName := "Acme", logo := some "acme.png", location := some "Remote",
                   industry := some "IT", openPositions := 1, featured := false,
                   description := none }] ∧
    (∃ store' r, upsertCompanyFromJob mongo acmeOnSite [] = Except.ok store' ∧
      Company.findOne acmeOnSite.company store' = some r ∧
      r.location = some (locationBySpec acmeOnSite)) :=
  upsert_location_matches_spec 1000 2 lahorePayload [] [acmeOnSite] acmeOnSite [] rfl
/-- C4. Whatever the Company collection does, `upsertCompanyFromJob` returns
normally; and when `endDate` passes the check and `JobPost.create` returns the
job, `createJob` answers 201 with that job and the Content Store is the one
`JobPost.create` left, whether or not the aggregate update succeeded. -/
theorem createJob_isolates_aggregate_failure (env : CreateJobEnv) (body : JobRequest)
    (jobs : List JobPost) (companies : List Company) (endTs : Int) (job : JobPost)
    (jobs' : List JobPost) (hend : body.endDate.getTime = some endTs)
    (hfuture : ¬ endTs < env.now)
    (hcreate : env.jobCreate (createPayload env body) jobs = Except.ok (job, jobs')) :
    (∀ (coll : CompanyColl) (j : JobPost) (store : List Company),
      ∃ store', upsertCompanyFromJob coll j store = Except.ok store') ∧
    (createJob env body jobs companies).response =
      { status := 201, body := CreateJobBody.job job } ∧
    (createJob env body jobs companies).jobs = jobs' := by
  refine ⟨?_, ?_, ?_⟩
  · intro coll j store
    unfold upsertCompanyFromJob
    by_cases hc : j.company = ""
    · exact ⟨store, by simp [hc, Except.tryCatch]⟩
    · cases h : coll.findOneAndUpdate j.company (upsertUpdate j) store with
      | error e => exact ⟨store, by simp [hc, h, Except.tryCatch]⟩
      | ok s => exact ⟨s, by simp [hc, h, Except.tryCatch]⟩
  · simp only [createJob, hend, hfuture, if_false, hcreate]
  · simp only [createJob, hend, hfuture, if_false, hcreate]

/-- C4, at a run in which the Company collection is unreachable. -/
theorem createJob_isolates_aggregate_failure_witness :
    (∀ (coll : CompanyColl) (j : JobPost) (store : List Company),
      ∃ store', upsertCompanyFromJob coll j store = Except.ok store') ∧
    (createJob outageEnv acmeRequest [] []).response =
      { status := 201, body := CreateJobBody.job acmeRemote } ∧
    (createJob outageEnv acmeRequest [] []).jobs = [acmeRemote] :=
  createJob_isolates_aggregate_failure outageEnv acmeRequest [] [] 2000 acmeRemote
    [acmeRemote] rfl (by decide) rfl

/-- C5. Reconciliation is idempotent: a second `backfillCompaniesFromJobs` run on
the same jobs leaves the Company collection exactly as the first run left it
(every document, every modelled field, same order). -/
theorem reconcileAll_idempotent (jobs : List JobPost) (store : List Company) :
    (reconcileAll jobs (reconcileAll jobs store).2).2 = (reconcileAll jobs store).2 := by
  have h1 := reconcileAll_eq jobs store
  have h2 := reconcileAll_eq jobs (reconcileAll jobs store).2
  rw [h2]
  simp only
  apply foldl_backfill_fixed
  intro g hg
  rw [h1]
  exact upsertDoc_fixed g.name _ _ _
    (foldl_backfill_findOne_mem _ (groupStage_names_nodup jobs) g hg store)
    (backfillUpdate_apply_idem g _)

/-- C6. Frame of reconciliation: a Company document whose `companyName` is the
company of no job stays at its position in the collection, unchanged in every
field. -/
theorem reconcileAll_frame (jobs : List JobPost) (store : List Company) (i : Nat)
    (r : Company) (hr : store[i]? = some r)
    (habsent : ∀ j ∈ jobs, j.company ≠ r.companyName) :
    (reconcileAll jobs store).2[i]? = some r := by
  rw [reconcileAll_eq]
  apply foldl_backfill_get_other _ _ _ _ hr
  intro g hg e
  obtain ⟨j, hj, hjc⟩ := List.mem_map.1 (groupStage_mem jobs g hg).1
  exact habsent j hj (hjc.trans e.symm)

/-- C6, at a stale Globex record while only Acme has jobs. -/
theorem reconcileAll_frame_witness :
    (reconcileAll [acmeRemote, acmeOnSite] [globexStale, acmeDrifted]).2[0]? =
      some globexStale :=
  reconcileAll_frame [acmeRemote, acmeOnSite] [globexStale, acmeDrifted] 0 globexStale rfl
    (by intro j hj; simp at hj; rcases hj with rfl | rfl <;> decide)

/-- C7. Reconciliation sets the counter: after `backfillCompaniesFromJobs`, every
company named by at least one job has a record whose `openPositions` is the
number of jobs naming it, whatever the collection held before. -/
theorem reconcileAll_sets_counter (jobs : List JobPost) (store : List Company) (c : String)
    (hc : c ∈ jobs.map (fun j => j.company)) :
    ∃ r, Company.findOne c (reconcileAll jobs store).2 = some r ∧
      r.openPositions = jobs.countP (fun j => decide (j.company = c)) := by
  obtain ⟨g, hg, hname, hfind⟩ := reconcileAll_findOne jobs store c hc
  refine ⟨_, hfind, ?_⟩
  have hcount := (groupStage_mem jobs g hg).2
  rw [hname] at hcount
  simp only [CompanyUpdate.apply, backfillUpdate, CounterOp.apply, set_count_or_zero, hcount]

/-- C7, at two Acme jobs and a record whose counter had drifted to 40. -/
theorem reconcileAll_sets_counter_witness :
    ∃ r, Company.findOne "Acme"
        (reconcileAll [acmeRemote, acmeOnSite] [globexStale, acmeDrifted]).2 = some r ∧
      r.openPositions =
        [acmeRemote, acmeOnSite].countP (fun j => decide (j.company = "Acme")) :=
  reconcileAll_sets_counter [acmeRemote, acmeOnSite] [globexStale, acmeDrifted] "Acme"
    (by decide)

/-- C8 as stated fails: with the single job `acmeExpired` (end date 1000) and the
clock at 2000, reconciliation stores `openPositions = 1` for Acme although no
job of Acme passes the non-expired filter `matchActive`. -/
theorem reconcileAll_counts_expired_counterexample :
    ∃ r, Company.findOne "Acme" (reconcileAll [acmeExpired] []).2 = some r ∧
      r.openPositions = 1 ∧
      [acmeExpired].countP (fun j => matchActive 2000 j && decide (j.company = "Acme")) = 0 ∧
      r.openPositions ≠
        ([acmeExpired].countP
          (fun j => matchActive 2000 j && decide (j.company = "Acme")) : Int) :=
  ⟨_, rfl, rfl, by decide, by decide⟩

/-- C8, amended. After `backfillCompaniesFromJobs`, for every company with at
least one job, `openPositions` is the number of all jobs naming the company: the
non-expired ones (filter `matchActive` at any time `now`) plus the expired ones. -/
theorem reconcileAll_counts_all_jobs (now : Int) (jobs : List JobPost)
    (store : List Company) (c : String) (hc : c ∈ jobs.map (fun j => j.company)) :
    ∃ r, Company.findOne c (reconcileAll jobs store).2 = some r ∧
      r.openPositions =
        (jobs.countP (fun j => matchActive now j && decide (j.company = c)) : Int) +
        (jobs.countP (fun j => !matchActive now j && decide (j.company = c)) : Int) := by
  obtain ⟨g, hg, hname, hfind⟩ := reconcileAll_findOne jobs store c hc
  refine ⟨_, hfind, ?_⟩
  have hcount := (groupStage_mem jobs g hg).2
  rw [hname, countP_split (fun j => decide (j.company = c)) (matchActive now) jobs] at hcount
  simp only [CompanyUpdate.apply, backfillUpdate, CounterOp.apply, set_count_or_zero, hcount]
  push_cast
  rfl

/-- C8 amended, at one live and one expired Acme job with the clock at 2000. -/
theorem reconcileAll_counts_all_jobs_witness :
    ∃ r, Company.findOne "Acme" (reconcileAll [acmeOnSite, acmeExpired] []).2 = some r ∧
      r.openPositions =
        ([acmeOnSite, acmeExpired].countP
          (fun j => matchActive 2000 j && decide (j.company = "Acme")) : Int) +
        ([acmeOnSite, acmeExpired].countP
          (fun j => !matchActive 2000 j && decide (j.company = "Acme")) : Int) :=
  reconcileAll_counts_all_jobs 2000 [acmeOnSite, acmeExpired] [] "Acme" (by decide)

/-- C9. Reconciliation summary: when the store calls succeed the answer is 200
with `companiesProcessed` the number of distinct company names among the jobs,
`created` the number of those names without a Company record before the call and
`updated` the number of those with one; hence `created + updated` is
`companiesProcessed`. -/
theorem reconcileAll_summary (jobs : List JobPost) (store : List Company) :
    (reconcileAll jobs store).1 =
      { status := 200,
        body := BackfillBody.summary
          (jobs.map (fun j => j.company)).toFinset.card
          ((jobs.map (fun j => j.company)).toFinset.filter
            (fun n => Company.findOne n store = none)).card
          ((jobs.map (fun j => j.company)).toFinset.filter
            (fun n => Company.findOne n store ≠ none)).card } ∧
    ((jobs.map (fun j => j.company)).toFinset.filter
        (fun n => Company.findOne n store = none)).card +
      ((jobs.map (fun j => j.company)).toFinset.filter
        (fun n => Company.findOne n store ≠ none)).card =
      (jobs.map (fun j => j.company)).toFinset.card := by
  refine ⟨?_, Finset.filter_card_add_filter_neg_card_eq_card _⟩
  have hnd := groupStage_names_nodup jobs
  have hset := groupStage_names_toFinset jobs
  have hlen : (groupStage jobs).length = (jobs.map (fun j => j.company)).toFinset.card := by
    rw [← hset, List.toFinset_card_of_nodup hnd, List.length_map]
  have hcr : (groupStage jobs).countP (fun g => decide (Company.findOne g.name store = none)) =
      ((jobs.map (fun j => j.company)).toFinset.filter
        (fun n => Company.findOne n store = none)).card := by
    rw [← hset, ← countP_eq_card_filter _ hnd, List.countP_map]
    rfl
  have hup : (groupStage jobs).countP (fun g => decide (Company.findOne g.name store ≠ none)) =
      ((jobs.map (fun j => j.company)).toFinset.filter
        (fun n => Company.findOne n store ≠ none)).card := by
    rw [← hset, ← countP_eq_card_filter _ hnd, List.countP_map]
    rfl
  rw [reconcileAll_eq, hlen, hcr, hup]

/-- C10. Duplicate application is an idempotent success: for a stored job that is
not expired at either call and a user with no application for it, the first
`applyToJob` answers 200 with `applied = true`, `new = true`, appends the
application and raises `applicationsCount` by exactly 1; the second answers 200
with `success`, `applied = true`, `new = false` and changes nothing. -/
theorem applyToJob_duplicate_is_success (now1 now2 : Int) (jobId user : Nat) (db : JobDb)
    (job : JobPost) (hjob : JobPost.findById jobId db.jobs = some job)
    (hlive1 : ∀ ts, job.endDate = some ts → ¬ ts < now1)
    (hlive2 : ∀ ts, job.endDate = some ts → ¬ ts < now2)
    (hnew : ({ job := jobId, user := user } : JobApplication) ∉ db.applications) :
    (applyToJob JobApplication.create now1 jobId (some user) db).1 =
      { status := 200,
        body := ApplyBody.result true (job.applicationsCount + 1) true true } ∧
    (applyToJob JobApplication.create now1 jobId (some user) db).2.applications =
      db.applications ++ [{ job := jobId, user := user }] ∧
    (JobPost.findById jobId
        (applyToJob JobApplication.create now1 jobId (some user) db).2.jobs).map
      (fun j => j.applicationsCount) = some (job.applicationsCount + 1) ∧
    (applyToJob JobApplication.create now2 jobId (some user)
        (applyToJob JobApplication.create now1 jobId (some user) db).2).1 =
      { status := 200,
        body := ApplyBody.result true (job.applicationsCount + 1) true false } ∧
    (applyToJob JobApplication.create now2 jobId (some user)
        (applyToJob JobApplication.create now1 jobId (some user) db).2).2 =
      (applyToJob JobApplication.create now1 jobId (some user) db).2 := by
  have hid := findById_id jobId db.jobs job hjob
  have hexp : ∀ now : Int, (∀ ts, job.endDate = some ts → ¬ ts < now) →
      (match job.endDate with
        | some ts => decide (ts < now)
        | none => false) = false := by
    intro now h
    cases he : job.endDate with
    | none => rfl
    | some ts => simpa using h ts he
  have hfirst : applyToJob JobApplication.create now1 jobId (some user) db =
      ({ status := 200,
         body := ApplyBody.result true (job.applicationsCount + 1) true true },
       { jobs := incApplicationsCount jobId db.jobs,
         applications := db.applications ++ [{ job := jobId, user := user }] }) := by
    simp only [applyToJob, hjob, hexp now1 hlive1, hid, JobApplication.create, hnew,
      if_false, findById_incApplicationsCount, Option.map_some', countOrZero]
    simp
  have hjob' := findById_incApplicationsCount jobId db.jobs
  rw [hjob] at hjob'
  rw [hfirst]
  refine ⟨rfl, rfl, ?_, ?_, ?_⟩
  · simp only [hjob', Option.map_some']
  · simp only [applyToJob, hjob', Option.map_some', hexp now2 hlive2, hid,
      JobApplication.create, countOrZero]
    simp
  · simp only [applyToJob, hjob', Option.map_some', hexp now2 hlive2, hid,
      JobApplication.create]
    simp

/-- C10, at the job `acmeRemote` (end date 2000), user 9, calls at 1500 and 1600. -/
theorem applyToJob_duplicate_is_success_witness :
    (applyToJob JobApplication.create 1500 1 (some 9)
        { jobs := [acmeRemote], applications := [] }).1 =
      { status := 200, body := ApplyBody.result true (acmeRemote.applicationsCount + 1) true true } ∧
    (applyToJob JobApplication.create 1500 1 (some 9)
        { jobs := [acmeRemote], applications := [] }).2.applications =
      [] ++ [{ job := 1, user := 9 }] ∧
    (JobPost.findById 1
        (applyToJob JobApplication.create 1500 1 (some 9)
          { jobs := [acmeRemote], applications := [] }).2.jobs).map
      (fun j => j.applicationsCount) = some (acmeRemote.applicationsCount + 1) ∧
    (applyToJob JobApplication.create 1600 1 (some 9)
        (applyToJob JobApplication.create 1500 1 (some 9)
          { jobs := [acmeRemote], applications := [] }).2).1 =
      { status := 200, body := ApplyBody.result true (acmeRemote.applicationsCount + 1) true false } ∧
    (applyToJob JobApplication.create 1600 1 (some 9)
        (applyToJob JobApplication.create 1500 1 (some 9)
          { jobs := [acmeRemote], applications := [] }).2).2 =
      (applyToJob JobApplication.create 1500 1 (some 9)
        { jobs := [acmeRemote], applications := [] }).2 :=
  applyToJob_duplicate_is_success 1500 1600 1 9 { jobs := [acmeRemote], applications := [] }
    acmeRemote rfl
    (by intro ts h; cases h; decide) (by intro ts h; cases h; decide) (by decide)

/-- C13. Legacy-record asymmetry: an active subscription record without a `types`
field is in the audience `createJob` queries and is not in the audience
`createBlog` queries. -/
theorem legacy_record_job_only (store : List Subscription) (s : Subscription)
    (hmem : s ∈ store) (hlegacy : s.types = none) (hactive : s.unsubscribed ≠ some true) :
    (∃ audience, Subscription.find store jobAudienceFilter = Except.ok audience ∧
      s ∈ audience) ∧
    (∃ audience, Subscription.find store blogAudienceFilter = Except.ok audience ∧
      s ∉ audience) := by
  refine ⟨⟨_, rfl, ?_⟩, ⟨_, rfl, ?_⟩⟩
  · simp [List.mem_filter, hmem, jobAudienceFilter, hlegacy, hactive]
  · simp [List.mem_filter, blogAudienceFilter, hlegacy]

/-- C13, at a record with neither `types` nor `unsubscribed`. -/
theorem legacy_record_job_only_witness :
    (∃ audience, Subscription.find [bothSub, legacySub] jobAudienceFilter =
        Except.ok audience ∧ legacySub ∈ audience) ∧
    (∃ audience, Subscription.find [bothSub, legacySub] blogAudienceFilter =
        Except.ok audience ∧ legacySub ∉ audience) :=
  legacy_record_job_only [bothSub, legacySub] legacySub (by decide) rfl (by decide)

/-- C14. Audience selection rule: a record with a `types` field is selected for a
channel exactly when it is stored, `unsubscribed` is not `true` and `types`
contains the channel; a record with `unsubscribed = true` is selected for
neither channel, whatever its `types`. -/
theorem audience_selection_rule (store : List Subscription) (s : Subscription)
    (ts : List String) (hts : s.types = some ts) :
    (∀ audience, Subscription.find store jobAudienceFilter = Except.ok audience →
      (s ∈ audience ↔ s ∈ store ∧ s.unsubscribed ≠ some true ∧ "job" ∈ ts)) ∧
    (∀ audience, Subscription.find store blogAudienceFilter = Except.ok audience →
      (s ∈ audience ↔ s ∈ store ∧ s.unsubscribed ≠ some true ∧ "blog" ∈ ts)) ∧
    (∀ r : Subscription, r.unsubscribed = some true →
      ∀ audience, (Subscription.find store jobAudienceFilter = Except.ok audience ∨
        Subscription.find store blogAudienceFilter = Except.ok audience) → r ∉ audience) := by
  refine ⟨?_, ?_, ?_⟩
  · intro audience h
    simp only [Subscription.find, Except.ok.injEq] at h
    subst h
    simp [List.mem_filter, jobAudienceFilter, hts]
  · intro audience h
    simp only [Subscription.find, Except.ok.injEq] at h
    subst h
    simp [List.mem_filter, blogAudienceFilter, hts]
  · intro r hr audience h
    simp only [Subscription.find, Except.ok.injEq] at h
    rcases h with h | h <;> subst h <;>
      simp [List.mem_filter, jobAudienceFilter, blogAudienceFilter, hr]

/-- C14, at a record whose `types` is `["blog"]`: selected for the blog channel
and not for the job channel. -/
theorem audience_selection_rule_witness :
    (∀ audience, Subscription.find [bothSub, blogOnlySub] jobAudienceFilter =
        Except.ok audience →
      (blogOnlySub ∈ audience ↔ blogOnlySub ∈ [bothSub, blogOnlySub] ∧
        blogOnlySub.unsubscribed ≠ some true ∧ "job" ∈ ["blog"])) ∧
    (∀ audience, Subscription.find [bothSub, blogOnlySub] blogAudienceFilter =
        Except.ok audience →
      (blogOnlySub ∈ audience ↔ blogOnlySub ∈ [bothSub, blogOnlySub] ∧
        blogOnlySub.unsubscribed ≠ some true ∧ "blog" ∈ ["blog"])) ∧
    (∀ r : Subscription, r.unsubscribed = some true →
      ∀ audience, (Subscription.find [bothSub, blogOnlySub] jobAudienceFilter =
          Except.ok audience ∨
        Subscription.find [bothSub, blogOnlySub] blogAudienceFilter = Except.ok audience) →
        r ∉ audience) :=
  audience_selection_rule [bothSub, blogOnlySub] blogOnlySub ["blog"] rfl

/-- C19. The salary label tests its bounds for truthiness: a job whose only bound
is `salaryMin = 0` gets the empty label although a bound is present, and the
bounds 0 and 100 are rendered without a separator; a single non-zero bound 5 is
rendered once. -/
theorem salaryLabel_zero_bound :
    salaryLabel { acmeRemote with salaryMin := some 0, salaryMax := none } = "" ∧
    salaryLabel { acmeRemote with salaryMin := some 0, salaryMax := some 100 } =
      "USD 0100 / Year" ∧
    salaryLabel { acmeRemote with salaryMin := some 5, salaryMax := none } = "USD 5 / Year" ∧
    salaryLabel { acmeRemote with salaryMin := none, salaryMax := none } = "" :=
  ⟨by decide, by decide, by decide, by decide⟩

/-- C20 as stated fails: reading the job `acmeExpired` (end date 1000, status
Active) through `getJobById` at time 2000 answers 404 and leaves the stored
record with status Active, not Expired. -/
theorem getJobById_keeps_status_counterexample :
    (getJobById 2000 4 [acmeExpired]).1 =
      { status := 404, body := GetJobBody.error "This job post has expired" } ∧
    (JobPost.findById 4 (getJobById 2000 4 [acmeExpired]).2).map (fun j => j.status) =
      some (some JobStatus.Active) ∧
    (JobPost.findById 4 (getJobById 2000 4 [acmeExpired]).2).map (fun j => j.status) ≠
      some (some JobStatus.Expired) :=
  ⟨by decide, by decide, by decide⟩

/-- C20, amended. Reading a stored job whose `endDate` is earlier than the read
time through `getJobById` answers 404 "This job post has expired"; no read
through `getJobById` changes the JobPost collection, so the stored status stays
what it was. -/
theorem getJobById_expired_is_404 (now : Int) (jobId : Nat) (jobs : List JobPost)
    (job : JobPost) (ts : Int) (hjob : JobPost.findById jobId jobs = some job)
    (hend : job.endDate = some ts) (hpast : ts < now) :
    (getJobById now jobId jobs).1 =
      { status := 404, body := GetJobBody.error "This job post has expired" } ∧
    (getJobById now jobId jobs).2 = jobs ∧
    (∀ (now' : Int) (jobId' : Nat) (jobs' : List JobPost),
      (getJobById now' jobId' jobs').2 = jobs') := by
  refine ⟨?_, ?_, ?_⟩
  · simp [getJobById, hjob, hend, hpast]
  · simp [getJobById, hjob, hend, hpast]
  · intro now' jobId' jobs'
    unfold getJobById
    split
    · rfl
    · split <;> rfl

/-- C20 amended, at the job `acmeExpired` read at time 2000. -/
theorem getJobById_expired_is_404_witness :
    (getJobById 2000 4 [acmeExpired]).1 =
      { status := 404, body := GetJobBody.error "This job post has expired" } ∧
    (getJobById 2000 4 [acmeExpired]).2 = [acmeExpired] ∧
    (∀ (now' : Int) (jobId' : Nat) (jobs' : List JobPost),
      (getJobById now' jobId' jobs').2 = jobs') :=
  getJobById_expired_is_404 2000 4 [acmeExpired] acmeExpired 1000 rfl rfl (by decide)

/-- C22. Unsubscribing the active record `bothSub` (types job and blog) from the
blog channel removes `blog` and keeps `job`, but also sets `unsubscribed` to
`true`, so the record is no longer in the job audience; an unsubscribe without a
channel sets the same flag and leaves `types` alone. -/
theorem unsubscribe_channel_deactivates :
    unsubscribe { email := some "a@x.com", type := some "blog" } [bothSub] =
      ({ status := 200, body := SubscribeBody.success },
       [{ email := "a@x.com", country := "PK", types := some ["job"],
          unsubscribed := some true }]) ∧
    jobAudienceFilter bothSub = true ∧
    jobAudienceFilter { email := "a@x.com", country := "PK", types := some ["job"],
                        unsubscribed := some true } = false ∧
    unsubscribe { email := some "a@x.com", type := none } [bothSub] =
      ({ status := 200, body := SubscribeBody.success },
       [{ email := "a@x.com", country := "PK", types := some ["job", "blog"],
          unsubscribed := some true }]) :=
  ⟨by decide, by decide, by decide, by decide⟩

end JobSite
